import Mathlib

/-!
Verification of the media-organization tool's core logic against its
natural-language specification.

The Python sources under `src/` are shallowly embedded below:
* the filesystem is a finite association list from path strings to byte lists,
  plus a list of write-protected paths (used to model `PermissionError`);
* `utils.are_files_identical`, `copier.copy_file`, `copier.process_media`,
  `exif_reader._get_exif_date` / `_parse_exif_datetime` / `get_image_date`,
  and `duplicate_ui.DuplicateReviewWindow._on_process_batch` are translated
  function-by-function;
* external collaborators (PIL, ffprobe, the filesystem mtime) are modelled as
  oracle inputs carried alongside each scanned file, exactly at the interface
  the source code consumes them.
-/

namespace MediaOrg

/-- File contents as a list of byte values. -/
abbrev Bytes := List Nat

/-- Model of the reachable filesystem: an association list mapping path
strings to file contents, plus the set of paths on which any write attempt
raises `PermissionError` (write-protected destinations). -/
structure MFs where
  files : List (String × Bytes)
  noWrite : List String
deriving DecidableEq

/-- First-match association lookup, mirroring a path-indexed read. -/
def lookupAssoc : List (String × Bytes) → String → Option Bytes
  | [], _ => none
  | (q, c) :: rest, p => if q = p then some c else lookupAssoc rest p

/-- Insert-or-replace for the association list, mirroring a file write. -/
def insertAssoc : List (String × Bytes) → String → Bytes → List (String × Bytes)
  | [], p, c => [(p, c)]
  | (q, d) :: rest, p, c =>
    if q = p then (p, c) :: rest else (q, d) :: insertAssoc rest p c

/-- Read a file's bytes, `none` when the path does not exist. -/
def fsLookup (fs : MFs) (p : String) : Option Bytes :=
  lookupAssoc fs.files p

/-- `os.path.exists` on the model. -/
def fsHas (fs : MFs) (p : String) : Bool :=
  (fsLookup fs p).isSome

/-- Write `c` to path `p` (create or overwrite). -/
def fsInsert (fs : MFs) (p : String) (c : Bytes) : MFs :=
  { fs with files := insertAssoc fs.files p c }

/-- Delete path `p` (`os.remove` / the delete half of a move). -/
def fsRemove (fs : MFs) (p : String) : MFs :=
  { fs with files := fs.files.filter (fun e => e.1 ≠ p) }

/-! ### String helpers (kernel-reducible replacements for `str` methods) -/

/-- Split a character list at every occurrence of `c` (Python `str.split(c)`). -/
def splitOnChar (c : Char) : List Char → List (List Char)
  | [] => [[]]
  | x :: xs =>
    match splitOnChar c xs with
    | [] => [[]]
    | h :: t => if x = c then [] :: h :: t else (x :: h) :: t

/-- Character for a decimal digit value. -/
def digitChar (r : Nat) : Char :=
  if r = 0 then '0' else if r = 1 then '1' else if r = 2 then '2'
  else if r = 3 then '3' else if r = 4 then '4' else if r = 5 then '5'
  else if r = 6 then '6' else if r = 7 then '7' else if r = 8 then '8'
  else '9'

/-- Decimal digit characters of `n`, most-significant first; fuel-based so it
reduces inside the kernel. -/
def natDigitsAux : Nat → Nat → List Char
  | 0, _ => []
  | _ + 1, 0 => []
  | fuel + 1, n + 1 =>
    natDigitsAux fuel ((n + 1) / 10) ++ [digitChar ((n + 1) % 10)]

/-- Decimal rendering of a natural number (Python `str(n)` for `n ≥ 0`). -/
def natToString (n : Nat) : String :=
  if n = 0 then "0" else String.mk (natDigitsAux (n + 1) n)

/-- Zero-pad the decimal rendering of `n` to at least `w` characters
(Python `f-string` `:0wd` formatting for non-negative values). -/
def padZ (w : Nat) (n : Nat) : String :=
  let s := natToString n
  String.mk (List.replicate (w - s.length) '0') ++ s

/-- `os.path.basename` under the POSIX separator. -/
def basename (p : String) : String :=
  String.mk ((splitOnChar '/' p.toList).getLastD [])

/-- `os.path.join` for one extra component (component never absolute here). -/
def joinPath (a b : String) : String :=
  if a = "" then b
  else if a.toList.getLast? = some '/' then a ++ b
  else a ++ "/" ++ b

/-- Calendar timestamp with the precision the tool resolves (`datetime`). -/
structure MDateTime where
  year : Nat
  month : Nat
  day : Nat
  hour : Nat
  minute : Nat
  second : Nat
deriving DecidableEq

/-- Destination path derivation of `copier.copy_file` lines 33-40:
`os.path.join(dest_base, f"{year:04d}", f"{month:02d}", f"{day:02d}")`
followed by joining the original filename. -/
def derivePath (dest_base : String) (date : MDateTime) (filename : String) : String :=
  joinPath (joinPath (joinPath (joinPath dest_base (padZ 4 date.year))
    (padZ 2 date.month)) (padZ 2 date.day)) filename

/-! ### `utils.are_files_identical` -/

/-- One round of the chunked comparison loop of `utils.are_files_identical`:
read a chunk from each stream, fail on mismatch, succeed at end-of-stream.
Fuel-based: fuel exceeding the first list's length makes the cutoff branch
unreachable for positive chunk sizes. -/
def chunksEqualAux (chunk : Nat) : Nat → Bytes → Bytes → Bool
  | 0, _, _ => true
  | fuel + 1, l1, l2 =>
    if l1.take chunk ≠ l2.take chunk then false
    else if (l1.take chunk).isEmpty then true
    else chunksEqualAux chunk fuel (l1.drop chunk) (l2.drop chunk)

/-- The chunk-comparison loop started with enough fuel to reach end-of-stream. -/
def chunksEqual (chunk : Nat) (l1 l2 : Bytes) : Bool :=
  chunksEqualAux chunk (l1.length + 1) l1 l2

/-- `utils.are_files_identical`: size compare first, then chunked byte
comparison; any `OSError` (modelled as an unreadable/missing path) yields
`false`. The function only reads, it never returns a modified filesystem. -/
def are_files_identical (fs : MFs) (path1 path2 : String)
    (chunk_size : Nat := 4096) : Bool :=
  match fsLookup fs path1, fsLookup fs path2 with
  | some c1, some c2 =>
    if c1.length ≠ c2.length then false
    else chunksEqual chunk_size c1 c2
  | _, _ => false

/-! ### `copier.copy_file` -/

/-- Result dictionary of `copier.copy_file`. The Python error branches omit
the `is_identical` key; reading it there falls back to `False`
(`result.get('is_identical', False)` at the call site), which is the value
used here. -/
structure CopyResult where
  success : Bool
  dest_path : Option String
  is_duplicate : Bool
  is_identical : Bool
  error : Option String
deriving DecidableEq

/-- `copier.copy_file`: derive the dated destination path; if it already
exists return the duplicate dictionary without touching the filesystem
(optionally attaching the binary-identity flag); otherwise perform the copy
or move. `PermissionError` (write-protected destination) and the generic
exception branch (missing source) return the error dictionary and leave the
filesystem unchanged. -/
def copy_file (fs : MFs) (source_path dest_base : String) (date : MDateTime)
    (move_files : Bool := false) (check_binary : Bool := false) :
    CopyResult × MFs :=
  let filename := basename source_path
  let dest_path := derivePath dest_base date filename
  if fsHas fs dest_path then
    let is_identical :=
      if check_binary then are_files_identical fs source_path dest_path else false
    ({ success := false, dest_path := some dest_path, is_duplicate := true,
       is_identical := is_identical, error := none }, fs)
  else if dest_path ∈ fs.noWrite then
    ({ success := false, dest_path := none, is_duplicate := false,
       is_identical := false,
       error := some ("Permission denied: [Errno 13] Permission denied: " ++ dest_path) }, fs)
  else
    match fsLookup fs source_path with
    | none =>
      ({ success := false, dest_path := none, is_duplicate := false,
         is_identical := false,
         error := some ("[Errno 2] No such file or directory: " ++ source_path) }, fs)
    | some content =>
      let fs1 := fsInsert fs dest_path content
      let fs2 := if move_files then fsRemove fs1 source_path else fs1
      ({ success := true, dest_path := some dest_path, is_duplicate := false,
         is_identical := false, error := none }, fs2)

/-! ### `exif_reader` date resolution -/

/-- All characters are decimal digits and the string is non-empty. -/
def allDigits (l : List Char) : Bool :=
  !l.isEmpty && l.all (fun c => c.isDigit)

/-- Digits-to-number conversion (most-significant first). -/
def digitsToNat (l : List Char) : Nat :=
  l.foldl (fun acc c => acc * 10 + (c.toNat - 48)) 0

/-- Parse a `strptime` numeric field whose width must lie in `[lo, hi]`
(CPython compiles `%Y` to exactly four digits and `%m %d %H %M %S` to one or
two digits). -/
def parseField (l : List Char) (lo hi : Nat) : Option Nat :=
  if lo ≤ l.length ∧ l.length ≤ hi ∧ allDigits l then some (digitsToNat l)
  else none

/-- Gregorian leap-year rule used by `datetime`. -/
def isLeap (y : Nat) : Bool :=
  (y % 4 = 0 && y % 100 ≠ 0) || y % 400 = 0

/-- Days in a month, as enforced by the `datetime` constructor. -/
def daysInMonth (y m : Nat) : Nat :=
  if m = 2 then (if isLeap y then 29 else 28)
  else if m = 4 ∨ m = 6 ∨ m = 9 ∨ m = 11 then 30
  else 31

/-- Range validation performed by the `datetime` constructor; out-of-range
components raise `ValueError`, which the parser converts to a failure. -/
def mkDatetime (y m d h mi s : Nat) : Option MDateTime :=
  if 1 ≤ y ∧ y ≤ 9999 ∧ 1 ≤ m ∧ m ≤ 12 ∧ 1 ≤ d ∧ d ≤ daysInMonth y m ∧
     h ≤ 23 ∧ mi ≤ 59 ∧ s ≤ 59 then
    some ⟨y, m, d, h, mi, s⟩
  else none

/-- `datetime.strptime(s, "%Y:%m:%d %H:%M:%S")`. -/
def strptimeFull (s : String) : Option MDateTime :=
  match splitOnChar ' ' s.toList with
  | [dpart, tpart] =>
    match splitOnChar ':' dpart, splitOnChar ':' tpart with
    | [ys, ms, ds], [hs, mis, ss] => do
      let y ← parseField ys 4 4
      let m ← parseField ms 1 2
      let d ← parseField ds 1 2
      let h ← parseField hs 1 2
      let mi ← parseField mis 1 2
      let se ← parseField ss 1 2
      mkDatetime y m d h mi se
    | _, _ => none
  | _ => none

/-- `datetime.strptime(s, "%Y:%m:%d")`. -/
def strptimeDateOnly (s : String) : Option MDateTime :=
  match splitOnChar ':' s.toList with
  | [ys, ms, ds] => do
    let y ← parseField ys 4 4
    let m ← parseField ms 1 2
    let d ← parseField ds 1 2
    mkDatetime y m d 0 0 0
  | _ => none

/-- `exif_reader._parse_exif_datetime`: try the full EXIF format, then the
date-only format, else `None`. -/
def parse_exif_datetime (s : String) : Option MDateTime :=
  match strptimeFull s with
  | some d => some d
  | none => strptimeDateOnly s

/-- EXIF tag dictionary returned by `img._getexif()`: numeric tag ids mapped
to string values. -/
abbrev ExifData := List (Nat × String)

/-- Dictionary lookup `exif_data.get(tag)`. -/
def tagLookup : ExifData → Nat → Option String
  | [], _ => none
  | (t, v) :: rest, tag => if t = tag then some v else tagLookup rest tag

/-- Python truthiness of `exif_data.get(tag)`: a missing tag and an empty
string both fail the `if date_str:` guard. -/
def truthyTag (exif_data : ExifData) (tag : Nat) : Option String :=
  match tagLookup exif_data tag with
  | some s => if s = "" then none else some s
  | none => none

/-- `exif_reader._get_exif_date`: `none` models both a missing/empty EXIF
dictionary and the `AttributeError` branch. Note that when a tag is present
and truthy (non-empty string), its parse result is returned directly —
an unparseable value does not fall through to the next tag. -/
def get_exif_date (exif : Option ExifData) : Option MDateTime :=
  match exif with
  | none => none
  | some exif_data =>
    if exif_data.isEmpty then none
    else
      match truthyTag exif_data 36867 with
      | some s => parse_exif_datetime s
      | none =>
        match truthyTag exif_data 36868 with
        | some s => parse_exif_datetime s
        | none =>
          match truthyTag exif_data 306 with
          | some s => parse_exif_datetime s
          | none => none

/-- `exif_reader.get_image_date`: EXIF chain first, then the filesystem
modification time (the mtime oracle, `none` when `os.path.getmtime` fails). -/
def get_image_date (exif : Option ExifData) (mtime : Option MDateTime) :
    Option MDateTime :=
  match get_exif_date exif with
  | some d => some d
  | none => mtime

/-! ### `copier.process_media` and the report writers -/

/-- Video extension set of `scanner.py`. -/
def VIDEO_EXTENSIONS : List String :=
  [".mp4", ".mov", ".avi", ".mkv", ".wmv", ".flv", ".webm", ".m4v", ".3gp"]

/-- Image extension set of `scanner.py`. -/
def IMAGE_EXTENSIONS : List String :=
  [".jpg", ".jpeg", ".png", ".heic", ".webp", ".gif", ".bmp", ".tiff", ".tif"]

/-- Extension part of `os.path.splitext` applied to a basename: the suffix
from the last dot, provided some earlier character of the basename is not a
dot (so purely-leading dots yield an empty extension). -/
def extOfChars (base : List Char) : List Char :=
  let rev := base.reverse
  match rev.dropWhile (fun c => c ≠ '.') with
  | [] => []
  | _ :: beforeRev =>
    if beforeRev.any (fun c => c ≠ '.') then
      '.' :: (rev.takeWhile (fun c => c ≠ '.')).reverse
    else []

/-- `os.path.splitext(p)[1]` for a path under the POSIX separator. -/
def fileExt (p : String) : String :=
  String.mk (extOfChars (basename p).toList)

/-- ASCII lowering of `str.lower()` (extensions are ASCII). -/
def toLowerStr (s : String) : String :=
  String.mk (s.toList.map Char.toLower)

/-- `exif_reader.is_video_file`: extension test, case-insensitive. -/
def is_video_file (p : String) : Bool :=
  toLowerStr (fileExt p) ∈ VIDEO_EXTENSIONS

/-- Oracle record for one scanned file: the path plus the answers the two
external collaborators give for it (`validate_media`, which wraps PIL or
ffprobe, and `get_media_date`, which ends in the mtime fallback). -/
structure FileInfo where
  path : String
  valid : Bool
  validationError : String
  date : Option MDateTime
deriving DecidableEq

/-- Entry of the `duplicates` list built by `process_media`. -/
structure DupEntry where
  source : String
  existing : String
  is_identical : Bool
deriving DecidableEq

/-- One recorded invocation of the progress callback:
`(current, total, status message)`. -/
structure ProgressEvent where
  cur : Nat
  total : Nat
  msg : String
deriving DecidableEq

/-- Mutable state of the `process_media` loop, plus the filesystem it acts
on and the trace of progress-callback invocations in call order. -/
structure BatchState where
  fs : MFs
  success_count : Nat
  image_count : Nat
  video_count : Nat
  duplicate_count : Nat
  error_count : Nat
  invalid_count : Nat
  duplicates : List DupEntry
  errors : List (String × String)
  invalid_files : List (String × String)
  success_files : List (String × String)
  events : List ProgressEvent
deriving DecidableEq

/-- Loop body of `process_media` for the file at (1-based) position `idx`:
validation, date resolution, transfer, bucket bookkeeping, per-branch
progress calls, and the every-10th / final-file cadence call. The invalid
and no-date branches `continue` before the cadence call. -/
def processOne (dest_folder : String) (move_files delete_duplicates : Bool)
    (total idx : Nat) (st : BatchState) (f : FileInfo) : BatchState :=
  if !f.valid then
    { st with
      invalid_count := st.invalid_count + 1
      invalid_files := st.invalid_files ++ [(f.path, f.validationError)]
      events := st.events ++
        [⟨idx, total, "Skipped (invalid): " ++ basename f.path⟩] }
  else
    match f.date with
    | none =>
      { st with
        error_count := st.error_count + 1
        errors := st.errors ++ [(f.path, "Could not extract date")]
        events := st.events ++
          [⟨idx, total, "Skipped (no date): " ++ basename f.path⟩] }
    | some date =>
      let rfs := copy_file st.fs f.path dest_folder date move_files delete_duplicates
      let r := rfs.1
      let st1 := { st with fs := rfs.2 }
      let st2 :=
        if r.success then
          { st1 with
            success_count := st1.success_count + 1
            video_count :=
              if is_video_file f.path then st1.video_count + 1 else st1.video_count
            image_count :=
              if is_video_file f.path then st1.image_count else st1.image_count + 1
            success_files := st1.success_files ++ [(f.path, r.dest_path.getD "")] }
        else if r.is_duplicate then
          { st1 with
            duplicate_count := st1.duplicate_count + 1
            events := st1.events ++
              [⟨idx, total, "Duplicate found: " ++ basename f.path⟩]
            duplicates := st1.duplicates ++
              [⟨f.path, r.dest_path.getD "", r.is_identical⟩] }
        else
          { st1 with
            error_count := st1.error_count + 1
            events := st1.events ++
              [⟨idx, total, "Error: " ++ r.error.getD "" ++ " - " ++ basename f.path⟩]
            errors := st1.errors ++ [(f.path, r.error.getD "")] }
      if idx % 10 = 0 ∨ idx = total then
        { st2 with
          events := st2.events ++
            [⟨idx, total,
              "Processed " ++ natToString idx ++ "/" ++ natToString total ++
                " files..."⟩] }
      else st2

/-- The `for idx, source_path in enumerate(media_files, 1)` loop. -/
def processLoop (dest_folder : String) (move_files delete_duplicates : Bool)
    (total : Nat) : List FileInfo → Nat → BatchState → BatchState
  | [], _, st => st
  | f :: rest, idx, st =>
    processLoop dest_folder move_files delete_duplicates total rest (idx + 1)
      (processOne dest_folder move_files delete_duplicates total idx st f)

/-- Body of `copier._write_invalid_images_log` up to the point of failure:
after writing the header lines it evaluates the name `invalid_images`,
which is defined nowhere in `copier.py` (the parameter is `invalid_files`),
so a `NameError` is raised and caught by the function's handler. -/
def invalidLogAttempt (invalid_files : List (String × String))
    (log_dir : String) : Except String String :=
  let log_path := joinPath log_dir "invalid_files.log"
  let _ := log_path
  let _ := invalid_files
  Except.error "NameError: name invalid_images is not defined"

/-- `copier._write_invalid_images_log`: returns the log path on success and
`None` when the body raised; the body always raises `NameError`. -/
def write_invalid_images_log (invalid_files : List (String × String))
    (log_dir : String) : Option String :=
  match invalidLogAttempt invalid_files log_dir with
  | Except.ok p => some p
  | Except.error _ => none

/-- `copier._write_success_log`: writes one `source  -->  destination` line
per successful file under a fixed header and returns the report path.
Returns the path and the per-record lines written (the dated header lines
are not modelled). -/
def write_success_log (success_files : List (String × String))
    (log_dir : String) : Option String × List String :=
  let log_path := joinPath log_dir "success_report.txt"
  (some log_path, success_files.map (fun sd => sd.1 ++ "  -->  " ++ sd.2))

/-- Result of `copier.process_media`: the final loop state plus the two
report paths. -/
structure BatchResult where
  state : BatchState
  invalid_log_path : Option String
  success_log_path : Option String

/-- `copier.process_media`: emit the initial progress call, run the loop over
the scanned files, then write the invalid and success reports when their
lists are non-empty and a log directory was supplied. -/
def process_media (fs : MFs) (media_files : List FileInfo)
    (dest_folder : String) (move_files delete_duplicates : Bool)
    (log_dir : Option String) : BatchResult :=
  let total := media_files.length
  let st0 : BatchState :=
    { fs := fs, success_count := 0, image_count := 0, video_count := 0,
      duplicate_count := 0, error_count := 0, invalid_count := 0,
      duplicates := [], errors := [], invalid_files := [], success_files := [],
      events := [⟨0, total, "Starting processing..."⟩] }
  let st := processLoop dest_folder move_files delete_duplicates total
    media_files 1 st0
  let invalid_log_path :=
    match log_dir with
    | some d => if st.invalid_files ≠ [] then write_invalid_images_log st.invalid_files d else none
    | none => none
  let success_log_path :=
    match log_dir with
    | some d => if st.success_files ≠ [] then (write_success_log st.success_files d).1 else none
    | none => none
  ⟨st, invalid_log_path, success_log_path⟩

/-! ### `duplicate_ui.DuplicateReviewWindow._on_process_batch` -/

/-- Descending insertion for `sorted(list(marked_indices), reverse=True)`. -/
def insertDesc (i : Nat) : List Nat → List Nat
  | [] => [i]
  | j :: rest => if j ≤ i then i :: j :: rest else j :: insertDesc i rest

/-- Sort a list of indices in descending order. -/
def sortDesc (l : List Nat) : List Nat :=
  l.foldr insertDesc []

/-- Review-window state: the filesystem, the working copy of the duplicate
list, and the set of indices marked for deletion. -/
structure ReviewState where
  fs : MFs
  duplicates : List DupEntry
  marked : List Nat
deriving DecidableEq

/-- The deletion loop of `_on_process_batch`: for each marked index in
descending order, `os.remove` the record's source file; on success remove
the record from the working list and bump the count; on failure (missing
file) log and retain the record. The out-of-range lookup branch is
unreachable for mark sets satisfying the window's invariant. -/
def commitGo : List Nat → MFs → List DupEntry → Nat → MFs × List DupEntry × Nat
  | [], fs, dups, n => (fs, dups, n)
  | i :: rest, fs, dups, n =>
    match dups[i]? with
    | none => commitGo rest fs dups n
    | some dup =>
      if fsHas fs dup.source then
        commitGo rest (fsRemove fs dup.source) (dups.eraseIdx i) (n + 1)
      else
        commitGo rest fs dups n

/-- `_on_process_batch` after the operator confirms: process the marked
indices highest-first, clear the mark set unconditionally, and surface the
number of files actually deleted. -/
def commit_marked_deletions (st : ReviewState) : ReviewState × Nat :=
  let r := commitGo (sortDesc st.marked) st.fs st.duplicates 0
  ({ fs := r.1, duplicates := r.2.1, marked := [] }, r.2.2)

/-! ### Derived predicates and concrete sample inputs used by the theorems -/

/-- Total number of files assigned to one of the four outcome buckets. -/
def bucketSum (st : BatchState) : Nat :=
  st.success_count + st.duplicate_count + st.error_count + st.invalid_count

/-- Each outcome counter agrees with the length of its list, and the
image/video split partitions the successes. -/
def countsOk (st : BatchState) : Prop :=
  st.success_count = st.success_files.length ∧
  st.duplicate_count = st.duplicates.length ∧
  st.error_count = st.errors.length ∧
  st.invalid_count = st.invalid_files.length ∧
  st.image_count + st.video_count = st.success_count

/-- A fixed capture date used in concrete scenarios. -/
def sampleDate : MDateTime := ⟨2024, 1, 15, 10, 30, 0⟩

/-- Filesystem in which the derived destination of `p.jpg` is already
occupied by a file whose bytes differ from the source's. -/
def fsDup : MFs := ⟨[("dst/2024/01/15/p.jpg", [1]), ("p.jpg", [2])], []⟩

/-- EXIF dictionary whose original-capture tag is unparseable while the
digitized tag holds a valid date. -/
def exifMixed : ExifData := [(36867, "not-a-date"), (36868, "2024:01:15 10:30:00")]

/-- A filesystem-modification-time fallback value distinct from every tag
date of `exifMixed`. -/
def mtFallback : MDateTime := ⟨2020, 6, 1, 0, 0, 0⟩

/-- Review scenario: two records both marked; the second record's source
file `b` has been deleted externally, the first record's source `a` and both
destination files `x`, `y` exist. -/
def scReview : ReviewState :=
  ⟨⟨[("a", [1]), ("x", [9]), ("y", [9])], []⟩,
   [⟨"a", "x", false⟩, ⟨"b", "y", false⟩], [0, 1]⟩

/-- A single valid scanned file with a resolvable date. -/
def sampleFile : FileInfo := ⟨"a.jpg", true, "", some sampleDate⟩

/-! ## Theorems -/

/-- C1: when the derived destination path already exists, `copy_file`
classifies the transfer as a duplicate and performs no write of any kind:
the returned filesystem is exactly the input filesystem (so the existing
destination's bytes are unchanged and the source is neither copied, moved,
nor deleted), in both copy and move modes and with or without binary
verification. -/
theorem C1_duplicate_no_write (fs : MFs) (src base : String) (date : MDateTime)
    (mv cb : Bool)
    (h : fsHas fs (derivePath base date (basename src)) = true) :
    (copy_file fs src base date mv cb).1.is_duplicate = true ∧
    (copy_file fs src base date mv cb).1.success = false ∧
    (copy_file fs src base date mv cb).2 = fs := by
  simp only [copy_file]
  rw [if_pos h]
  exact ⟨rfl, rfl, rfl⟩

/-- C1 witness: the duplicate scenario `fsDup` instantiates the hypothesis
and the conclusion. -/
theorem C1_duplicate_no_write_witness :
    fsHas fsDup (derivePath "dst" sampleDate (basename "p.jpg")) = true ∧
    ((copy_file fsDup "p.jpg" "dst" sampleDate true false).1.is_duplicate = true ∧
     (copy_file fsDup "p.jpg" "dst" sampleDate true false).1.success = false ∧
     (copy_file fsDup "p.jpg" "dst" sampleDate true false).2 = fsDup) :=
  ⟨by decide,
   C1_duplicate_no_write fsDup "p.jpg" "dst" sampleDate true false (by decide)⟩

/-- C3 counterexample: with identity verification disabled, a duplicate
outcome carries `is_identical = false`, and that is the very same value a
verification-enabled run attaches to a duplicate whose bytes differ from
the destination's — so the unverified verdict is not distinguishable from a
definite non-identical verdict, contradicting the claimed `Unknown`. -/
theorem C3_verdict_not_distinguishable :
    (copy_file fsDup "p.jpg" "dst" sampleDate false false).1.is_duplicate = true ∧
    (copy_file fsDup "p.jpg" "dst" sampleDate false true).1.is_duplicate = true ∧
    are_files_identical fsDup "p.jpg" "dst/2024/01/15/p.jpg" = false ∧
    (copy_file fsDup "p.jpg" "dst" sampleDate false false).1.is_identical =
      (copy_file fsDup "p.jpg" "dst" sampleDate false true).1.is_identical := by
  decide

/-- C3 amended: with identity verification disabled, a duplicate outcome
carries the boolean `is_identical = false`; the transfer result contains no
third `Unknown` value, so the unverified verdict coincides with the
verified "different" verdict. -/
theorem C3_unverified_duplicate_flag (fs : MFs) (src base : String)
    (date : MDateTime) (mv : Bool)
    (h : fsHas fs (derivePath base date (basename src)) = true) :
    (copy_file fs src base date mv false).1.is_duplicate = true ∧
    (copy_file fs src base date mv false).1.is_identical = false := by
  simp only [copy_file]
  rw [if_pos h]
  exact ⟨rfl, rfl⟩

/-- C3 witness: the amended statement instantiated on `fsDup`. -/
theorem C3_unverified_duplicate_flag_witness :
    fsHas fsDup (derivePath "dst" sampleDate (basename "p.jpg")) = true ∧
    ((copy_file fsDup "p.jpg" "dst" sampleDate false false).1.is_duplicate = true ∧
     (copy_file fsDup "p.jpg" "dst" sampleDate false false).1.is_identical = false) :=
  ⟨by decide,
   C3_unverified_duplicate_flag fsDup "p.jpg" "dst" sampleDate false (by decide)⟩

/-- C2 counterexample: an image whose original-capture tag (36867) holds an
unparseable string while the digitized tag (36868) holds a parseable date
resolves to the filesystem modification time, not to the digitized date —
the chain does not proceed to the next embedded source. -/
theorem C2_unparseable_tag_skips_chain :
    parse_exif_datetime "2024:01:15 10:30:00" = some ⟨2024, 1, 15, 10, 30, 0⟩ ∧
    parse_exif_datetime "not-a-date" = none ∧
    get_image_date (some exifMixed) (some mtFallback) = some mtFallback ∧
    get_image_date (some exifMixed) (some mtFallback) ≠
      some ⟨2024, 1, 15, 10, 30, 0⟩ := by
  decide

/-- C2 amended: if the original-capture tag is present and non-empty but its
value is unparseable, the whole EXIF stage yields no date and resolution
falls directly to the filesystem modification time; the digitized and
generic tags are not consulted. -/
theorem C2_unparseable_falls_to_mtime (exif_data : ExifData)
    (mtime : Option MDateTime) (s : String)
    (h1 : tagLookup exif_data 36867 = some s) (h2 : s ≠ "")
    (h3 : parse_exif_datetime s = none) :
    get_exif_date (some exif_data) = none ∧
    get_image_date (some exif_data) mtime = mtime := by
  have hne : exif_data.isEmpty = false := by
    cases exif_data with
    | nil => simp [tagLookup] at h1
    | cons a l => rfl
  have htr : truthyTag exif_data 36867 = some s := by
    simp [truthyTag, h1, h2]
  have hexif : get_exif_date (some exif_data) = none := by
    simp [get_exif_date, hne, htr, h3]
  exact ⟨hexif, by simp [get_image_date, hexif]⟩

/-- C2 witness: the amended statement instantiated on `exifMixed`. -/
theorem C2_unparseable_falls_to_mtime_witness :
    (tagLookup exifMixed 36867 = some "not-a-date" ∧ "not-a-date" ≠ "" ∧
     parse_exif_datetime "not-a-date" = none) ∧
    (get_exif_date (some exifMixed) = none ∧
     get_image_date (some exifMixed) (some mtFallback) = some mtFallback) :=
  ⟨⟨by decide, by decide, by decide⟩,
   C2_unparseable_falls_to_mtime exifMixed (some mtFallback) "not-a-date"
     (by decide) (by decide) (by decide)⟩

/-- C7: the invalid-file report is never produced. The body of
`_write_invalid_images_log` references the undefined name `invalid_images`,
so it raises `NameError`, the handler returns `None`, and the batch result's
`invalid_log_path` is `None` for every batch — including batches with a
non-empty invalid list and a supplied log directory. The success report, by
contrast, is written and its path returned whenever successes exist. -/
theorem C7_invalid_report_never_written (fs : MFs) (files : List FileInfo)
    (dest : String) (mv dd : Bool) (d : String) :
    (process_media fs files dest mv dd (some d)).invalid_log_path = none ∧
    (∀ inv, write_invalid_images_log inv d = none) ∧
    ((process_media fs files dest mv dd (some d)).success_log_path = none ∨
     (process_media fs files dest mv dd (some d)).success_log_path =
       some (joinPath d "success_report.txt")) := by
  refine ⟨?_, fun inv => rfl, ?_⟩
  · simp only [process_media]
    split
    · rfl
    · rfl
  · simp only [process_media, write_success_log]
    split
    · right; rfl
    · left; rfl

/-- The chunked comparison loop, run with fuel exceeding the first stream's
length and a positive chunk size, succeeds exactly on equal byte lists. -/
theorem chunksEqualAux_eq_iff (chunk : Nat) (hc : 0 < chunk) :
    ∀ fuel l1 l2, l1.length < fuel →
      (chunksEqualAux chunk fuel l1 l2 = true ↔ l1 = l2) := by
  intro fuel
  induction fuel with
  | zero => intro l1 l2 h; omega
  | succ fuel ih =>
    intro l1 l2 h
    simp only [chunksEqualAux]
    by_cases htake : l1.take chunk = l2.take chunk
    · rw [if_neg (by simp [htake])]
      by_cases hemp : (l1.take chunk).isEmpty
      · rw [if_pos hemp]
        have h1 : l1 = [] := by
          rcases List.take_eq_nil_iff.mp (List.isEmpty_iff.mp hemp) with h' | h'
          · omega
          · exact h'
        have h2 : l2 = [] := by
          rcases List.take_eq_nil_iff.mp
            (List.isEmpty_iff.mp (htake ▸ hemp)) with h' | h'
          · omega
          · exact h'
        simp [h1, h2]
      · rw [if_neg hemp]
        have hl1 : l1 ≠ [] := by
          intro hnil
          simp [hnil] at hemp
        have hlen : (l1.drop chunk).length < fuel := by
          have : l1.length ≤ fuel := by omega
          have hpos : 0 < l1.length := List.length_pos.mpr hl1
          simp only [List.length_drop]
          omega
        rw [ih (l1.drop chunk) (l2.drop chunk) hlen]
        constructor
        · intro hdrop
          calc l1 = l1.take chunk ++ l1.drop chunk := (List.take_append_drop chunk l1).symm
            _ = l2.take chunk ++ l2.drop chunk := by rw [htake, hdrop]
            _ = l2 := List.take_append_drop chunk l2
        · intro heq
          rw [heq]
    · rw [if_pos (by simp [htake])]
      constructor
      · intro hfalse; cases hfalse
      · intro heq; exact absurd (heq ▸ rfl) htake

/-- C5: `are_files_identical` returns `true` exactly when both paths are
readable and hold the same byte content end-to-end (which subsumes equal
sizes); in particular an unreadable path or a missing file yields `false`.
The function is a pure read: it returns no modified filesystem. -/
theorem C5_identity_check_correct (fs : MFs) (p1 p2 : String) :
    are_files_identical fs p1 p2 = true ↔
      ∃ c, fsLookup fs p1 = some c ∧ fsLookup fs p2 = some c := by
  unfold are_files_identical
  cases h1 : fsLookup fs p1 with
  | none => simp
  | some c1 =>
    cases h2 : fsLookup fs p2 with
    | none => simp
    | some c2 =>
      simp only
      by_cases hlen : c1.length = c2.length
      · rw [if_neg (by simp [hlen])]
        unfold chunksEqual
        rw [chunksEqualAux_eq_iff 4096 (by omega) (c1.length + 1) c1 c2 (by omega)]
        constructor
        · intro heq; exact ⟨c1, rfl, by rw [heq]⟩
        · rintro ⟨c, hc1, hc2⟩
          cases hc1; cases hc2; rfl
      · rw [if_pos (by simp [hlen])]
        constructor
        · intro hfalse; cases hfalse
        · rintro ⟨c, hc1, hc2⟩
          cases hc1; cases hc2; exact absurd rfl hlen

/-- A string with a non-empty left part stays non-empty after appending. -/
theorem append_ne_empty_left (a b : String) (h : a ≠ "") : a ++ b ≠ "" := by
  intro hab
  apply h
  have hd : (a ++ b).data = a.data ++ b.data := String.data_append a b
  have : a.data ++ b.data = [] := by rw [← hd, hab]
  have ha : a.data = [] := (List.append_eq_nil.mp this).1
  cases a
  simp_all

/-- C10: every `copy_file` result has exactly one of three shapes — success
with a destination and no error, duplicate with the derived destination and
no error, or caught failure with no destination and a non-empty error
message (with the permission case prefixed distinctly). A duplicate never
carries an error message and a failure never carries a destination path. -/
theorem C10_result_shapes (fs : MFs) (src base : String) (date : MDateTime)
    (mv cb : Bool) :
    ((copy_file fs src base date mv cb).1.success = true ∧
     (copy_file fs src base date mv cb).1.dest_path =
       some (derivePath base date (basename src)) ∧
     (copy_file fs src base date mv cb).1.is_duplicate = false ∧
     (copy_file fs src base date mv cb).1.error = none) ∨
    ((copy_file fs src base date mv cb).1.success = false ∧
     (copy_file fs src base date mv cb).1.is_duplicate = true ∧
     (copy_file fs src base date mv cb).1.dest_path =
       some (derivePath base date (basename src)) ∧
     (copy_file fs src base date mv cb).1.error = none) ∨
    ((copy_file fs src base date mv cb).1.success = false ∧
     (copy_file fs src base date mv cb).1.is_duplicate = false ∧
     (copy_file fs src base date mv cb).1.dest_path = none ∧
     ∃ e, (copy_file fs src base date mv cb).1.error = some e ∧ e ≠ "") := by
  unfold copy_file
  by_cases hdup : fsHas fs (derivePath base date (basename src)) = true
  · rw [if_pos hdup]
    right; left
    exact ⟨rfl, rfl, rfl, rfl⟩
  · rw [if_neg hdup]
    by_cases hperm : derivePath base date (basename src) ∈ fs.noWrite
    · rw [if_pos hperm]
      right; right
      refine ⟨rfl, rfl, rfl,
        "Permission denied: [Errno 13] Permission denied: " ++
          derivePath base date (basename src), rfl, ?_⟩
      exact append_ne_empty_left _ _ (by decide)
    · rw [if_neg hperm]
      cases hsrc : fsLookup fs src with
      | none =>
        right; right
        refine ⟨rfl, rfl, rfl,
          "[Errno 2] No such file or directory: " ++ src, rfl, ?_⟩
        exact append_ne_empty_left _ _ (by decide)
      | some content =>
        left
        exact ⟨rfl, rfl, rfl, rfl⟩

/-- Every digit character is one of the ten digit glyphs, hence not a path
separator. -/
theorem digitChar_ne_slash (r : Nat) : digitChar r ≠ '/' := by
  unfold digitChar
  repeat' split
  all_goals decide

/-- Digit-list length bound: `n < 10 ^ k` yields at most `k` digits. -/
theorem natDigitsAux_length_le :
    ∀ fuel k n, n < fuel → n < 10 ^ k → (natDigitsAux fuel n).length ≤ k := by
  intro fuel
  induction fuel with
  | zero => intro k n h; omega
  | succ fuel ih =>
    intro k n hfuel hk
    cases n with
    | zero => simp [natDigitsAux]
    | succ m =>
      cases k with
      | zero => simp at hk
      | succ k' =>
        simp only [natDigitsAux, List.length_append, List.length_cons,
          List.length_nil]
        have hdiv : (m + 1) / 10 < fuel := by
          have := Nat.div_lt_self (Nat.succ_pos m) (by omega : 1 < 10)
          omega
        have hdivk : (m + 1) / 10 < 10 ^ k' := by
          rw [Nat.div_lt_iff_lt_mul (by omega : 0 < 10)]
          calc m + 1 < 10 ^ (k' + 1) := hk
            _ = 10 ^ k' * 10 := by ring
        have := ih k' ((m + 1) / 10) hdiv hdivk
        omega

/-- The decimal rendering of a bounded number is at most `k` characters. -/
theorem natToString_length_le (n k : Nat) (hk : 0 < k) (h : n < 10 ^ k) :
    (natToString n).length ≤ k := by
  unfold natToString
  by_cases h0 : n = 0
  · rw [if_pos h0]
    simpa using hk
  · rw [if_neg h0]
    have : (String.mk (natDigitsAux (n + 1) n)).length =
        (natDigitsAux (n + 1) n).length := rfl
    rw [this]
    exact natDigitsAux_length_le (n + 1) k n (by omega) h

/-- Zero-padding yields exactly the requested width whenever the plain
rendering fits in it. -/
theorem padZ_length (w n : Nat) (h : (natToString n).length ≤ w) :
    (padZ w n).length = w := by
  unfold padZ
  rw [String.length_append]
  have : (String.mk (List.replicate (w - (natToString n).length) '0')).length =
      w - (natToString n).length := by
    show (List.replicate (w - (natToString n).length) '0').length = _
    simp
  omega

/-- The decimal rendering is never the empty string. -/
theorem natToString_ne_empty (n : Nat) : natToString n ≠ "" := by
  unfold natToString
  by_cases h0 : n = 0
  · rw [if_pos h0]; decide
  · rw [if_neg h0]
    intro hcon
    have : natDigitsAux (n + 1) n = [] := congrArg String.data hcon
    cases n with
    | zero => exact h0 rfl
    | succ m => simp [natDigitsAux] at this

/-- The last character of a decimal rendering is a digit glyph, never the
path separator. -/
theorem natToString_last_ne_slash (n : Nat) :
    ∀ c, (natToString n).data.getLast? = some c → c ≠ '/' := by
  unfold natToString
  by_cases h0 : n = 0
  · rw [if_pos h0]
    intro c hc
    have : c = '0' := by
      have : ("0" : String).data = ['0'] := rfl
      rw [this] at hc
      simpa using hc.symm
    rw [this]; decide
  · rw [if_neg h0]
    intro c hc
    cases n with
    | zero => exact absurd rfl h0
    | succ m =>
      have hrw : natDigitsAux (m + 2) (m + 1) =
          natDigitsAux (m + 1) ((m + 1) / 10) ++ [digitChar ((m + 1) % 10)] := rfl
      have hdata : (String.mk (natDigitsAux (m + 2) (m + 1))).data =
          natDigitsAux (m + 1) ((m + 1) / 10) ++ [digitChar ((m + 1) % 10)] := hrw
      rw [hdata, List.getLast?_concat] at hc
      have : c = digitChar ((m + 1) % 10) := by simpa using hc.symm
      rw [this]
      exact digitChar_ne_slash _

/-- Padded numbers are non-empty strings. -/
theorem padZ_ne_empty (w n : Nat) : padZ w n ≠ "" := by
  unfold padZ
  intro hcon
  have hd := congrArg String.data hcon
  rw [String.data_append] at hd
  have : (natToString n).data = [] := (List.append_eq_nil.mp hd).2
  apply natToString_ne_empty n
  cases hmk : natToString n
  simp_all

/-- The last character of a padded number is the rendering's last digit,
never the path separator. -/
theorem padZ_last_ne_slash (w n : Nat) :
    ∀ c, (padZ w n).data.getLast? = some c → c ≠ '/' := by
  intro c hc
  unfold padZ at hc
  rw [String.data_append, List.getLast?_append] at hc
  have hne : (natToString n).data ≠ [] := by
    intro hnil
    apply natToString_ne_empty n
    cases hmk : natToString n
    simp_all
  rw [List.getLast?_eq_getLast _ hne] at hc
  have : (natToString n).data.getLast? = some c := by
    rw [List.getLast?_eq_getLast _ hne]
    simpa using hc
  exact natToString_last_ne_slash n c this

/-- Joining onto a non-empty component keeps its last character. -/
theorem joinPath_getLast (a b : String) (hb : b ≠ "") :
    (joinPath a b).data.getLast? = b.data.getLast? := by
  have hbne : b.data ≠ [] := by
    intro hnil
    apply hb
    cases b
    simp_all
  unfold joinPath
  by_cases ha : a = ""
  · rw [if_pos ha]
  · rw [if_neg ha]
    by_cases hsl : a.toList.getLast? = some '/'
    · rw [if_pos hsl, String.data_append, List.getLast?_append,
        List.getLast?_eq_getLast _ hbne]
      simp
    · rw [if_neg hsl, String.data_append, String.data_append,
        List.getLast?_append, List.getLast?_append,
        List.getLast?_eq_getLast _ hbne]
      simp

/-- A join with a non-empty right component is non-empty. -/
theorem joinPath_ne_empty (a b : String) (hb : b ≠ "") : joinPath a b ≠ "" := by
  unfold joinPath
  by_cases ha : a = ""
  · rw [if_pos ha]; exact hb
  · rw [if_neg ha]
    by_cases hsl : a.toList.getLast? = some '/'
    · rw [if_pos hsl]
      intro hcon
      apply ha
      have := congrArg String.data hcon
      rw [String.data_append] at this
      have : a.data = [] := (List.append_eq_nil.mp this).1
      cases a
      simp_all
    · rw [if_neg hsl]
      exact append_ne_empty_left _ _ (append_ne_empty_left a "/" ha)

/-- Joining onto a component that does not end in a slash inserts exactly one
separator. -/
theorem joinPath_eq_append (a b : String) (ha : a ≠ "")
    (hsl : a.toList.getLast? ≠ some '/') :
    joinPath a b = a ++ "/" ++ b := by
  unfold joinPath
  rw [if_neg ha, if_neg hsl]

/-- Appending a padded number never ends in the path separator. -/
theorem append_padZ_last_ne_slash (a : String) (w n : Nat) :
    (a ++ padZ w n).toList.getLast? ≠ some '/' := by
  intro hc
  have hne : (padZ w n).data ≠ [] := by
    intro hnil
    apply padZ_ne_empty w n
    cases hmk : padZ w n
    simp_all
  have hdata : (a ++ padZ w n).data.getLast? = some '/' := hc
  rw [String.data_append, List.getLast?_append,
    List.getLast?_eq_getLast _ hne] at hdata
  have : (padZ w n).data.getLast? = some '/' := by
    rw [List.getLast?_eq_getLast _ hne]
    simpa using hdata
  exact padZ_last_ne_slash w n '/' this rfl

/-- C9: destination-path derivation. The derived path depends only on the
year, month and day of the resolved date (determinism over equal inputs);
for a destination root that is non-empty and does not already end in the
separator it equals `root/YYYY/MM/DD/filename`; the year is zero-padded to
four characters and month and day to two for all in-range values; and
changing only the day component changes only the day segment — the prefix
and the `/filename` suffix are unchanged. -/
theorem C9_path_derivation (root name : String) (t u : MDateTime) :
    (t.year = u.year → t.month = u.month → t.day = u.day →
      derivePath root t name = derivePath root u name) ∧
    (root ≠ "" → root.toList.getLast? ≠ some '/' →
      derivePath root t name =
        root ++ "/" ++ padZ 4 t.year ++ "/" ++ padZ 2 t.month ++ "/" ++
          padZ 2 t.day ++ "/" ++ name) ∧
    (t.year ≤ 9999 → (padZ 4 t.year).length = 4) ∧
    (t.month ≤ 99 → (padZ 2 t.month).length = 2) ∧
    (t.day ≤ 99 → (padZ 2 t.day).length = 2) ∧
    (∃ pre, ∀ d : Nat,
      derivePath root { t with day := d } name = pre ++ padZ 2 d ++ "/" ++ name) := by
  refine ⟨?_, ?_, ?_, ?_, ?_, ?_⟩
  · intro h1 h2 h3
    unfold derivePath
    rw [h1, h2, h3]
  · intro hne hsl
    have s1 : joinPath root (padZ 4 t.year) = root ++ "/" ++ padZ 4 t.year :=
      joinPath_eq_append _ _ hne hsl
    have h1ne : root ++ "/" ++ padZ 4 t.year ≠ "" :=
      append_ne_empty_left _ _ (append_ne_empty_left _ _ hne)
    have h1sl : (root ++ "/" ++ padZ 4 t.year).toList.getLast? ≠ some '/' :=
      append_padZ_last_ne_slash (root ++ "/") 4 t.year
    have s2 := joinPath_eq_append (root ++ "/" ++ padZ 4 t.year)
      (padZ 2 t.month) h1ne h1sl
    have h2ne : root ++ "/" ++ padZ 4 t.year ++ "/" ++ padZ 2 t.month ≠ "" :=
      append_ne_empty_left _ _ (append_ne_empty_left _ _ h1ne)
    have h2sl : (root ++ "/" ++ padZ 4 t.year ++ "/" ++
        padZ 2 t.month).toList.getLast? ≠ some '/' :=
      append_padZ_last_ne_slash (root ++ "/" ++ padZ 4 t.year ++ "/") 2 t.month
    have s3 := joinPath_eq_append (root ++ "/" ++ padZ 4 t.year ++ "/" ++
      padZ 2 t.month) (padZ 2 t.day) h2ne h2sl
    have h3ne : root ++ "/" ++ padZ 4 t.year ++ "/" ++ padZ 2 t.month ++ "/" ++
        padZ 2 t.day ≠ "" :=
      append_ne_empty_left _ _ (append_ne_empty_left _ _ h2ne)
    have h3sl : (root ++ "/" ++ padZ 4 t.year ++ "/" ++ padZ 2 t.month ++ "/" ++
        padZ 2 t.day).toList.getLast? ≠ some '/' :=
      append_padZ_last_ne_slash
        (root ++ "/" ++ padZ 4 t.year ++ "/" ++ padZ 2 t.month ++ "/") 2 t.day
    have s4 := joinPath_eq_append (root ++ "/" ++ padZ 4 t.year ++ "/" ++
      padZ 2 t.month ++ "/" ++ padZ 2 t.day) name h3ne h3sl
    unfold derivePath
    rw [s1, s2, s3, s4]
  · intro hy
    refine padZ_length 4 t.year (natToString_length_le t.year 4 (by omega) ?_)
    have : (10 : Nat) ^ 4 = 10000 := by norm_num
    omega
  · intro hm
    refine padZ_length 2 t.month (natToString_length_le t.month 2 (by omega) ?_)
    have : (10 : Nat) ^ 2 = 100 := by norm_num
    omega
  · intro hd
    refine padZ_length 2 t.day (natToString_length_le t.day 2 (by omega) ?_)
    have : (10 : Nat) ^ 2 = 100 := by norm_num
    omega
  · refine ⟨joinPath (joinPath root (padZ 4 t.year)) (padZ 2 t.month) ++ "/",
      fun d => ?_⟩
    have hx2ne : joinPath (joinPath root (padZ 4 t.year)) (padZ 2 t.month) ≠ "" :=
      joinPath_ne_empty _ _ (padZ_ne_empty 2 t.month)
    have hx2sl : (joinPath (joinPath root (padZ 4 t.year))
        (padZ 2 t.month)).toList.getLast? ≠ some '/' := by
      have h := joinPath_getLast (joinPath root (padZ 4 t.year)) (padZ 2 t.month)
        (padZ_ne_empty 2 t.month)
      show (joinPath (joinPath root (padZ 4 t.year))
        (padZ 2 t.month)).data.getLast? ≠ some '/'
      rw [h]
      intro hc
      exact padZ_last_ne_slash 2 t.month '/' hc rfl
    have s3 := joinPath_eq_append (joinPath (joinPath root (padZ 4 t.year))
      (padZ 2 t.month)) (padZ 2 d) hx2ne hx2sl
    have hx3ne : joinPath (joinPath root (padZ 4 t.year)) (padZ 2 t.month) ++
        "/" ++ padZ 2 d ≠ "" :=
      append_ne_empty_left _ _ (append_ne_empty_left _ _ hx2ne)
    have hx3sl : (joinPath (joinPath root (padZ 4 t.year)) (padZ 2 t.month) ++
        "/" ++ padZ 2 d).toList.getLast? ≠ some '/' :=
      append_padZ_last_ne_slash
        (joinPath (joinPath root (padZ 4 t.year)) (padZ 2 t.month) ++ "/") 2 d
    have s4 := joinPath_eq_append (joinPath (joinPath root (padZ 4 t.year))
      (padZ 2 t.month) ++ "/" ++ padZ 2 d) name hx3ne hx3sl
    show joinPath (joinPath (joinPath (joinPath root (padZ 4 t.year))
      (padZ 2 t.month)) (padZ 2 d)) name = _
    rw [s3, s4]

/-- C9 witness: the derivation at a concrete root, date and filename; the
determinism clause is exercised with two dates sharing year, month, day but
differing in time-of-day. -/
theorem C9_path_derivation_witness :
    (("dst" : String) ≠ "" ∧ ("dst" : String).toList.getLast? ≠ some '/' ∧
     sampleDate.year = (⟨2024, 1, 15, 0, 0, 0⟩ : MDateTime).year ∧
     sampleDate.year ≤ 9999 ∧ sampleDate.month ≤ 99 ∧ sampleDate.day ≤ 99) ∧
    derivePath "dst" sampleDate "p.jpg" =
      derivePath "dst" ⟨2024, 1, 15, 0, 0, 0⟩ "p.jpg" ∧
    derivePath "dst" sampleDate "p.jpg" =
      "dst" ++ "/" ++ padZ 4 sampleDate.year ++ "/" ++ padZ 2 sampleDate.month ++
        "/" ++ padZ 2 sampleDate.day ++ "/" ++ "p.jpg" ∧
    (padZ 4 sampleDate.year).length = 4 ∧
    (padZ 2 sampleDate.month).length = 2 ∧
    (padZ 2 sampleDate.day).length = 2 :=
  ⟨by decide,
   (C9_path_derivation "dst" "p.jpg" sampleDate ⟨2024, 1, 15, 0, 0, 0⟩).1
     rfl rfl rfl,
   (C9_path_derivation "dst" "p.jpg" sampleDate sampleDate).2.1
     (by decide) (by decide),
   (C9_path_derivation "dst" "p.jpg" sampleDate sampleDate).2.2.1 (by decide),
   (C9_path_derivation "dst" "p.jpg" sampleDate sampleDate).2.2.2.1 (by decide),
   (C9_path_derivation "dst" "p.jpg" sampleDate sampleDate).2.2.2.2.1 (by decide)⟩

/-- Each loop iteration assigns its file to exactly one outcome bucket. -/
theorem processOne_bucketSum (dest : String) (mv dd : Bool) (tot idx : Nat)
    (st : BatchState) (f : FileInfo) :
    bucketSum (processOne dest mv dd tot idx st f) = bucketSum st + 1 := by
  unfold processOne bucketSum
  (try dsimp only)
  repeat' split
  all_goals (try dsimp only)
  all_goals omega

/-- Each loop iteration keeps the counters aligned with their lists. -/
theorem processOne_countsOk (dest : String) (mv dd : Bool) (tot idx : Nat)
    (st : BatchState) (f : FileInfo) (h : countsOk st) :
    countsOk (processOne dest mv dd tot idx st f) := by
  obtain ⟨h1, h2, h3, h4, h5⟩ := h
  unfold processOne countsOk
  (try dsimp only)
  repeat' split
  all_goals (try simp_all)
  all_goals omega

/-- The loop over all scanned files adds one bucket assignment per file. -/
theorem processLoop_bucketSum (dest : String) (mv dd : Bool) (tot : Nat) :
    ∀ files idx st,
      bucketSum (processLoop dest mv dd tot files idx st) =
        bucketSum st + files.length := by
  intro files
  induction files with
  | nil => intro idx st; simp [processLoop]
  | cons f rest ih =>
    intro idx st
    simp only [processLoop, List.length_cons]
    rw [ih, processOne_bucketSum]
    omega

/-- The loop over all scanned files preserves counter/list alignment. -/
theorem processLoop_countsOk (dest : String) (mv dd : Bool) (tot : Nat) :
    ∀ files idx st, countsOk st →
      countsOk (processLoop dest mv dd tot files idx st) := by
  intro files
  induction files with
  | nil => intro idx st h; exact h
  | cons f rest ih =>
    intro idx st h
    exact ih (idx + 1) _ (processOne_countsOk dest mv dd tot idx st f h)

/-- C6: every scanned file lands in exactly one outcome bucket, so the four
counters sum to the number of scanned files; each counter equals the length
of its list, and the image/video tally partitions the successes. -/
theorem C6_outcome_partition (fs : MFs) (files : List FileInfo) (dest : String)
    (mv dd : Bool) (ld : Option String) :
    bucketSum (process_media fs files dest mv dd ld).state = files.length ∧
    countsOk (process_media fs files dest mv dd ld).state := by
  constructor
  · show bucketSum (processLoop dest mv dd files.length files 1 _) = _
    rw [processLoop_bucketSum]
    simp [bucketSum]
  · show countsOk (processLoop dest mv dd files.length files 1 _)
    apply processLoop_countsOk
    simp [countsOk]

/-- Progress calls emitted by one loop iteration: they are appended to the
existing trace, all carry the current index and total, and whenever the
10th-file / final-file condition holds at this index at least one call is
emitted. -/
theorem processOne_events (dest : String) (mv dd : Bool) (tot idx : Nat)
    (st : BatchState) (f : FileInfo) :
    ∃ ts, (processOne dest mv dd tot idx st f).events = st.events ++ ts ∧
      (∀ e ∈ ts, e.cur = idx ∧ e.total = tot) ∧
      ((idx % 10 = 0 ∨ idx = tot) →
        ∃ s, (⟨idx, tot, s⟩ : ProgressEvent) ∈ ts) := by
  unfold processOne
  (try dsimp only)
  repeat' split
  all_goals (try dsimp only)
  all_goals (try rw [List.append_assoc])
  all_goals
    (first
      | exact ⟨[], (List.append_nil _).symm, by simp,
          fun h => absurd h (by assumption)⟩
      | exact ⟨_, rfl, by simp, fun h => ⟨_, List.mem_cons_self _ _⟩⟩)

/-- Progress calls emitted by the whole loop from index `idx` on: appended
to the existing trace, indices within `[idx, idx + length)`, totals all
`tot`, and every in-range index satisfying the cadence condition is hit. -/
theorem processLoop_events (dest : String) (mv dd : Bool) (tot : Nat) :
    ∀ (files : List FileInfo) (idx : Nat) (st : BatchState),
      ∃ ts, (processLoop dest mv dd tot files idx st).events = st.events ++ ts ∧
        (∀ e ∈ ts, idx ≤ e.cur ∧ e.cur < idx + files.length ∧ e.total = tot) ∧
        (∀ k, idx ≤ k → k < idx + files.length → (k % 10 = 0 ∨ k = tot) →
          ∃ s, (⟨k, tot, s⟩ : ProgressEvent) ∈ ts) := by
  intro files
  induction files with
  | nil =>
    intro idx st
    refine ⟨[], (List.append_nil _).symm, by simp, ?_⟩
    intro k hk1 hk2 _
    simp at hk2
    omega
  | cons f rest ih =>
    intro idx st
    obtain ⟨t1, ht1, ht1m, ht1hit⟩ := processOne_events dest mv dd tot idx st f
    obtain ⟨t2, ht2, ht2m, ht2hit⟩ :=
      ih (idx + 1) (processOne dest mv dd tot idx st f)
    refine ⟨t1 ++ t2, ?_, ?_, ?_⟩
    · rw [processLoop, ht2, ht1, List.append_assoc]
    · intro e he
      rcases List.mem_append.mp he with h1 | h2
      · obtain ⟨hc, ht⟩ := ht1m e h1
        refine ⟨by omega, ?_, ht⟩
        simp only [List.length_cons]
        omega
      · obtain ⟨hc1, hc2, ht⟩ := ht2m e h2
        refine ⟨by omega, ?_, ht⟩
        simp only [List.length_cons]
        omega
    · intro k hk1 hk2 hcond
      by_cases hk : k = idx
      · subst hk
        obtain ⟨s, hs⟩ := ht1hit hcond
        exact ⟨s, List.mem_append.mpr (Or.inl hs)⟩
      · have hk2' : k < idx + 1 + rest.length := by
          simp only [List.length_cons] at hk2
          omega
        obtain ⟨s, hs⟩ := ht2hit k (by omega) hk2' hcond
        exact ⟨s, List.mem_append.mpr (Or.inr hs)⟩

/-- C8: for a batch over `n ≥ 1` scanned files, the first progress call is
`(0, n)` (the start call, the only call with a zero index); every 10th index
in range receives a call carrying `(k, n)`; and the final file receives a
call carrying `(n, n)` whatever its outcome. -/
theorem C8_progress_cadence (fs : MFs) (files : List FileInfo) (dest : String)
    (mv dd : Bool) (ld : Option String) (n : Nat) (hn : files.length = n)
    (h1 : 1 ≤ n) :
    (process_media fs files dest mv dd ld).state.events.head? =
      some ⟨0, n, "Starting processing..."⟩ ∧
    (∀ e ∈ (process_media fs files dest mv dd ld).state.events.tail, 1 ≤ e.cur) ∧
    (∀ k, 1 ≤ k → k ≤ n → k % 10 = 0 →
      ∃ s, (⟨k, n, s⟩ : ProgressEvent) ∈
        (process_media fs files dest mv dd ld).state.events) ∧
    (∃ s, (⟨n, n, s⟩ : ProgressEvent) ∈
      (process_media fs files dest mv dd ld).state.events) := by
  obtain ⟨ts, hts, htsm, htshit⟩ :=
    processLoop_events dest mv dd files.length files 1
      { fs := fs, success_count := 0, image_count := 0, video_count := 0,
        duplicate_count := 0, error_count := 0, invalid_count := 0,
        duplicates := [], errors := [], invalid_files := [], success_files := [],
        events := [⟨0, files.length, "Starting processing..."⟩] }
  have hev : (process_media fs files dest mv dd ld).state.events =
      ⟨0, files.length, "Starting processing..."⟩ :: ts := by
    show (processLoop dest mv dd files.length files 1 _).events = _
    rw [hts]
    rfl
  subst hn
  refine ⟨?_, ?_, ?_, ?_⟩
  · rw [hev]; rfl
  · rw [hev]
    intro e he
    exact (htsm e he).1
  · intro k hk1 hk2 hk10
    obtain ⟨s, hs⟩ := htshit k hk1 (by omega) (Or.inl hk10)
    exact ⟨s, by rw [hev]; exact List.mem_cons_of_mem _ hs⟩
  · obtain ⟨s, hs⟩ := htshit files.length h1 (by omega) (Or.inr rfl)
    exact ⟨s, by rw [hev]; exact List.mem_cons_of_mem _ hs⟩

/-- C8 witness: a one-file batch; the hypotheses hold at `n = 1` and the
conclusion follows by applying the cadence theorem there. -/
theorem C8_progress_cadence_witness :
    ([sampleFile].length = 1 ∧ 1 ≤ 1) ∧
    ((process_media ⟨[("a.jpg", [7])], []⟩ [sampleFile] "dst" false false
        none).state.events.head? = some ⟨0, 1, "Starting processing..."⟩ ∧
     (∀ e ∈ (process_media ⟨[("a.jpg", [7])], []⟩ [sampleFile] "dst" false false
        none).state.events.tail, 1 ≤ e.cur) ∧
     (∀ k, 1 ≤ k → k ≤ 1 → k % 10 = 0 →
       ∃ s, (⟨k, 1, s⟩ : ProgressEvent) ∈
         (process_media ⟨[("a.jpg", [7])], []⟩ [sampleFile] "dst" false false
           none).state.events) ∧
     (∃ s, (⟨1, 1, s⟩ : ProgressEvent) ∈
       (process_media ⟨[("a.jpg", [7])], []⟩ [sampleFile] "dst" false false
         none).state.events)) :=
  ⟨⟨rfl, le_refl 1⟩,
   C8_progress_cadence ⟨[("a.jpg", [7])], []⟩ [sampleFile] "dst" false false
     none 1 rfl (le_refl 1)⟩

/-- Deleting one path leaves every other path's content unchanged. -/
theorem lookupAssoc_filter_ne (q p : String) (hne : p ≠ q) :
    ∀ l : List (String × Bytes),
      lookupAssoc (l.filter (fun e => e.1 ≠ q)) p = lookupAssoc l p := by
  intro l
  induction l with
  | nil => rfl
  | cons a rest ih =>
    obtain ⟨a1, a2⟩ := a
    by_cases haq : a1 = q
    · have hd : (decide ((a1, a2).1 ≠ q)) = false := by simp [haq]
      have hap : ¬ (a1 = p) := fun h => hne (h.symm.trans haq)
      simp only [List.filter_cons, hd, Bool.false_eq_true, if_false]
      rw [ih]
      simp only [lookupAssoc]
      rw [if_neg hap]
    · have hd : (decide ((a1, a2).1 ≠ q)) = true := by simp [haq]
      simp only [List.filter_cons, hd, if_true]
      simp only [lookupAssoc]
      by_cases hap : a1 = p
      · rw [if_pos hap, if_pos hap]
      · rw [if_neg hap, if_neg hap]
        exact ih

/-- `fsRemove` is invisible at every path other than the removed one. -/
theorem fsRemove_lookup_ne (fs : MFs) (q p : String) (hne : p ≠ q) :
    fsLookup (fsRemove fs q) p = fsLookup fs p :=
  lookupAssoc_filter_ne q p hne fs.files

/-- The deletion loop only ever removes source paths of records present in
the working list, and every retained record was already in the list. -/
theorem commitGo_frame :
    ∀ (idxs : List Nat) (fs : MFs) (dups : List DupEntry) (n : Nat),
      (∀ e ∈ (commitGo idxs fs dups n).2.1, e ∈ dups) ∧
      (∀ p, fsLookup (commitGo idxs fs dups n).1 p ≠ fsLookup fs p →
        p ∈ dups.map (fun d => d.source)) := by
  intro idxs
  induction idxs with
  | nil =>
    intro fs dups n
    exact ⟨fun e he => he, fun p hp => absurd rfl hp⟩
  | cons i rest ih =>
    intro fs dups n
    simp only [commitGo]
    cases hget : dups[i]? with
    | none => exact ih fs dups n
    | some dup =>
      (try dsimp only)
      by_cases hhas : fsHas fs dup.source = true
      · rw [if_pos hhas]
        obtain ⟨ih1, ih2⟩ := ih (fsRemove fs dup.source) (dups.eraseIdx i) (n + 1)
        constructor
        · intro e he
          exact (List.eraseIdx_sublist dups i).subset (ih1 e he)
        · intro p hp
          by_cases hmid :
            fsLookup (commitGo rest (fsRemove fs dup.source)
              (dups.eraseIdx i) (n + 1)).1 p =
              fsLookup (fsRemove fs dup.source) p
          · have hne : fsLookup (fsRemove fs dup.source) p ≠ fsLookup fs p :=
              fun h => hp (hmid.trans h)
            have hps : p = dup.source := by
              by_contra hodd
              exact hne (fsRemove_lookup_ne fs dup.source p hodd)
            exact List.mem_map.mpr ⟨dup, List.getElem?_mem hget, hps.symm⟩
          · have := ih2 p hmid
            rcases List.mem_map.mp this with ⟨d, hd, hds⟩
            exact List.mem_map.mpr
              ⟨d, (List.eraseIdx_sublist dups i).subset hd, hds⟩
      · rw [if_neg hhas]
        exact ih fs dups n

/-- C4: committing the marked deletions clears the mark set unconditionally;
every retained record comes from the working list; only source paths of
listed records are ever deleted (existing/destination files are untouched);
and on the two-record scenario with one externally deleted source it
returns count 1, retains the failed record, deletes only source `a`, and
leaves both destination files in place. -/
theorem C4_commit_marked_deletions (st : ReviewState) :
    (commit_marked_deletions st).1.marked = [] ∧
    (∀ e ∈ (commit_marked_deletions st).1.duplicates, e ∈ st.duplicates) ∧
    (∀ p, fsLookup (commit_marked_deletions st).1.fs p ≠ fsLookup st.fs p →
      p ∈ st.duplicates.map (fun d => d.source)) ∧
    commit_marked_deletions scReview =
      (⟨⟨[("x", [9]), ("y", [9])], []⟩, [⟨"b", "y", false⟩], []⟩, 1) := by
  refine ⟨rfl, ?_, ?_, by decide⟩
  · intro e he
    exact (commitGo_frame (sortDesc st.marked) st.fs st.duplicates 0).1 e he
  · intro p hp
    exact (commitGo_frame (sortDesc st.marked) st.fs st.duplicates 0).2 p hp

/-- C4 witness: in the concrete scenario the filesystem changed at the
deleted source path `a`, and the frame theorem locates `a` among the
recorded source paths. -/
theorem C4_commit_marked_deletions_witness :
    fsLookup (commit_marked_deletions scReview).1.fs "a" ≠
      fsLookup scReview.fs "a" ∧
    "a" ∈ scReview.duplicates.map (fun d => d.source) :=
  ⟨by decide,
   (C4_commit_marked_deletions scReview).2.2.1 "a" (by decide)⟩

end MediaOrg
